import Mathlib

/-!
Verification of the hit-region sampling and mapping engine of the
`hit-region-highlighter` browser extension.

The JavaScript sources are shallowly embedded as executable Lean
definitions:

* `src/models/Coordinate.js` — coordinate encode/decode utilities
  (`coordToKey`, `keyToCoord`, `coordEquals`, `createCoordinate`);
* `src/models/HitRegionMap.js` — the bidirectional coordinate/element
  index (`HitRegionMap` with `addCoordinate`, `getCoordinates`,
  `getElement`, `getCoordinateCount`);
* `src/InteractiveElementFinder.js` — the interactive-element
  classifier (`isInteractive`, `getImplicitRole`,
  `findInteractiveAncestor`);
* `src/HitRegionCalculator.js` — grid generation and the sampling pass
  (`generateCoordinateGrid`, `calculate`, `getHitRegion`);
* `src/content.js` — the mutation relevance filter
  (`isRelevantMutation`) and the orchestrator's assignment of a freshly
  calculated map (`runCalculation`).

JavaScript numbers only ever hold non-negative integer pixel
coordinates in this code, so coordinate components are modelled as
`Nat`.  JavaScript strings are modelled as `List Char` so that the
`"x,y"` key encoding can be reasoned about structurally.  DOM elements
are opaque handles, modelled as `Nat` ids.  Host primitives
(`document.elementFromPoint`, `document.contains`, `performance.now`,
`AbortSignal`) are oracle parameters of the sampling pass.
-/

namespace HitRegion

/-- DOM element references are opaque handles; the index only compares
them by reference identity, so an id suffices. -/
abbrev Elem := Nat

/-- `Coordinate.js`: a coordinate is a record with numeric fields `x`
and `y`.  In this program both are non-negative integer pixel offsets. -/
structure Coordinate where
  x : Nat
  y : Nat
deriving DecidableEq

/-- `createCoordinate(x, y)` from `Coordinate.js`: pure construction. -/
def createCoordinate (x y : Nat) : Coordinate := ⟨x, y⟩

/-- `coordEquals(coord1, coord2)` from `Coordinate.js`:
`coord1.x === coord2.x && coord1.y === coord2.y`. -/
def coordEquals (coord1 coord2 : Coordinate) : Bool :=
  coord1.x == coord2.x && coord1.y == coord2.y

/-- The decimal digit character for `d` (`0`–`9`); any other input maps
to a placeholder that never occurs in rendered numbers. -/
def digitChar (d : Nat) : Char :=
  if d = 0 then '0' else if d = 1 then '1' else if d = 2 then '2'
  else if d = 3 then '3' else if d = 4 then '4' else if d = 5 then '5'
  else if d = 6 then '6' else if d = 7 then '7' else if d = 8 then '8'
  else if d = 9 then '9' else '*'

/-- Decimal rendering of a natural number, fuelled so that it is
structurally recursive (the fuel only needs to dominate the digit
count; `natDigits` passes `n + 1`). -/
def natDigitsAux (fuel : Nat) (n : Nat) : List Char :=
  match fuel with
  | 0 => []
  | fuel + 1 =>
    if n < 10 then [digitChar n]
    else natDigitsAux fuel (n / 10) ++ [digitChar (n % 10)]

/-- The decimal string of `n`, as produced by a JavaScript template
literal `${n}` for a non-negative integer. -/
def natDigits (n : Nat) : List Char := natDigitsAux (n + 1) n

/-- `coordToKey(coord)` from `Coordinate.js`:
the template literal `` `${coord.x},${coord.y}` ``. -/
def coordToKey (coord : Coordinate) : List Char :=
  natDigits coord.x ++ ',' :: natDigits coord.y

/-- The numeric value of a decimal digit character, `none` for
non-digits. -/
def digitVal (c : Char) : Option Nat :=
  if c = '0' then some 0 else if c = '1' then some 1 else if c = '2' then some 2
  else if c = '3' then some 3 else if c = '4' then some 4 else if c = '5' then some 5
  else if c = '6' then some 6 else if c = '7' then some 7 else if c = '8' then some 8
  else if c = '9' then some 9 else none

/-- One step of decimal parsing: extend the accumulated value by one
digit, failing on non-digits. -/
def parseStep (acc : Option Nat) (c : Char) : Option Nat :=
  match acc, digitVal c with
  | some a, some d => some (a * 10 + d)
  | _, _ => none

/-- JavaScript `Number(s)` restricted to the strings this program feeds
it: strings of decimal digits parse to their value (the empty string
parses to `0`, as `Number("")` does); any other character yields
`none`, standing for `NaN`, which `Nat` cannot represent. -/
def parseNum (s : List Char) : Option Nat := s.foldl parseStep (some 0)

/-- JavaScript `key.split(',')` on a character list: splits at every
comma, keeping empty segments. -/
def splitComma : List Char → List (List Char)
  | [] => [[]]
  | c :: rest =>
    match splitComma rest with
    | [] => [[]]
    | s :: ss => if c = ',' then [] :: s :: ss else (c :: s) :: ss

/-- `keyToCoord(key)` from `Coordinate.js`:
`const [x, y] = key.split(',').map(Number); return { x, y }`.
A missing or non-numeric component would make the JavaScript result
carry `NaN`, which `Nat` cannot represent; those outcomes are `none`. -/
def keyToCoord (key : List Char) : Option Coordinate :=
  match (splitComma key).map parseNum with
  | some x :: some y :: _ => some ⟨x, y⟩
  | _ => none

/-- One axis of the sampling loop in `generateCoordinateGrid`
(`HitRegionCalculator.js`): the successive values of
`for (let x = start; x < limit; x += resolution)`, fuelled so that the
definition is structurally recursive (the fuel only needs to dominate
the iteration count; `gridAxis` passes `limit`).  A `resolution` of `0`
would make the JavaScript loop run forever; the configuration layer
restricts the resolution to `1`–`100`, and the model returns `[]` on
that dead input. -/
def gridAxisAux (fuel limit resolution x : Nat) : List Nat :=
  match fuel with
  | 0 => []
  | fuel + 1 =>
    if x < limit then
      if resolution = 0 then []
      else x :: gridAxisAux fuel limit resolution (x + resolution)
    else []

/-- The loop-variable values of one axis of the grid loop, starting at `0`. -/
def gridAxis (limit resolution : Nat) : List Nat :=
  gridAxisAux limit limit resolution 0

/-- `generateCoordinateGrid(resolution)` from `HitRegionCalculator.js`,
with the viewport size (`window.innerWidth` / `window.innerHeight`)
passed explicitly.  The outer loop ranges over `x`, the inner loop over
`y`, pushing `createCoordinate(x, y)` for each pair. -/
def generateCoordinateGrid (width height resolution : Nat) : List Coordinate :=
  (gridAxis width resolution).flatMap fun x =>
    (gridAxis height resolution).map fun y => createCoordinate x y

/-- Ceiling division on naturals: the `ceil(W / r)` of the spec. -/
def ceilDiv (a b : Nat) : Nat := (a + b - 1) / b

/-- Coordinate keys are the strings produced by `coordToKey`. -/
abbrev Key := List Char

/-- `get` on a JavaScript `Map` (or `WeakMap`) modelled as an
association list: the value bound to `key`, if any. -/
def mapGet {α β : Type} [DecidableEq α] : List (α × β) → α → Option β
  | [], _ => none
  | (k, v) :: rest, key => if key = k then some v else mapGet rest key

/-- `set` on a JavaScript `Map` (or `WeakMap`): update the binding in
place if the key is present, otherwise append it. -/
def mapSet {α β : Type} [DecidableEq α] : List (α × β) → α → β → List (α × β)
  | [], key, value => [(key, value)]
  | (k, v) :: rest, key, value =>
    if key = k then (k, value) :: rest else (k, v) :: mapSet rest key value

/-- `add` on a JavaScript `Set`: a no-op when the value is already
present, otherwise append (JavaScript sets iterate in insertion order). -/
def setAdd {α : Type} [DecidableEq α] (s : List α) (x : α) : List α :=
  if x ∈ s then s else s ++ [x]

/-- The state of a `HitRegionMap` (`HitRegionMap.js`).  The `WeakMap`
`elementToCoordinates` and the `Map` `coordinateToElement` are
association lists; the element-keyed storage being weak does not affect
the values observed through `get`/`set`.  `warnings` counts the
`console.warn` emissions of `addCoordinate` (the per-element
coordinate-limit warning), so that warning behaviour is observable in
the model. -/
structure HitRegionMap where
  elementToCoordinates : List (Elem × List Key)
  coordinateToElement : List (Key × Elem)
  elements : List Elem
  maxCoordinatesPerElement : Nat
  warnings : Nat
deriving DecidableEq

/-- The `HitRegionMap` constructor.
`maxCoordinatesPerElement = options.maxCoordinatesPerElement || 10000`:
an absent option, like the JavaScript-falsy `0`, yields the default
`10000`. -/
def HitRegionMap.new (optMax : Option Nat) : HitRegionMap :=
  { elementToCoordinates := []
    coordinateToElement := []
    elements := []
    maxCoordinatesPerElement :=
      match optMax with
      | some n => if n = 0 then 10000 else n
      | none => 10000
    warnings := 0 }

/-- `HitRegionMap.addCoordinate(element, coord)`.  Returns the updated
map and the boolean result (`true` if the coordinate was added, `false`
if an argument was nullish or the per-element limit was reached).  The
JavaScript method mutates the `Set` held in the `WeakMap` in place;
here the updated set is written back.  When the limit is reached the
method returns `false` without touching either view, emitting the
`console.warn` (counted in `warnings`) whenever the set size equals the
limit — which is every time, since the set never grows past the limit. -/
def HitRegionMap.addCoordinate (m : HitRegionMap) (element : Option Elem)
    (coord : Option Coordinate) : HitRegionMap × Bool :=
  match element, coord with
  | some element, some coord =>
    -- let coordinates = this.elementToCoordinates.get(element), creating
    -- and registering an empty set (and tracking the element) when absent
    let reg :=
      match mapGet m.elementToCoordinates element with
      | some s => (s, m)
      | none =>
        ([], { m with
                elementToCoordinates := mapSet m.elementToCoordinates element []
                elements := setAdd m.elements element })
    let coordinates := reg.1
    let m₁ := reg.2
    if m₁.maxCoordinatesPerElement ≤ coordinates.length then
      if coordinates.length = m₁.maxCoordinatesPerElement then
        ({ m₁ with warnings := m₁.warnings + 1 }, false)
      else
        (m₁, false)
    else
      let key := coordToKey coord
      ({ m₁ with
          elementToCoordinates := mapSet m₁.elementToCoordinates element (setAdd coordinates key)
          coordinateToElement := mapSet m₁.coordinateToElement key element }, true)
  | _, _ => (m, false)

/-- `HitRegionMap.getCoordinates(element)`: the element's stored keys
decoded back to coordinates (empty array when the element is nullish or
unknown).  The JavaScript decodes each key inline exactly as
`keyToCoord` does; a key that failed to decode would carry `NaN`
components, unrepresentable here, and cannot occur because every stored
key is produced by `coordToKey`. -/
def HitRegionMap.getCoordinates : HitRegionMap → Option Elem → List Coordinate
  | _, none => []
  | m, some element =>
    match mapGet m.elementToCoordinates element with
    | none => []
    | some coordinateKeys => coordinateKeys.filterMap keyToCoord

/-- `HitRegionMap.getElement(coord)`: the element stored at the
coordinate's key, `null` (`none`) when the coordinate is nullish or
unmapped. -/
def HitRegionMap.getElement : HitRegionMap → Option Coordinate → Option Elem
  | _, none => none
  | m, some coord => mapGet m.coordinateToElement (coordToKey coord)

/-- `HitRegionMap.getCoordinateCount(element)`: the size of the
element's stored set, `0` when absent. -/
def HitRegionMap.getCoordinateCount (m : HitRegionMap) (element : Elem) : Nat :=
  match mapGet m.elementToCoordinates element with
  | some coordinates => coordinates.length
  | none => 0

/-- `getHitRegion(hitRegionMap, element)` from `HitRegionCalculator.js`:
a pure lookup that falls back to the empty array on nullish arguments. -/
def getHitRegion (hitRegionMap : Option HitRegionMap) (element : Option Elem) :
    List Coordinate :=
  match hitRegionMap, element with
  | some m, some element => m.getCoordinates (some element)
  | _, _ => []

/-- The index-consistency invariant of the claim: every coordinate key
bound to an element in `coordinateToElement` is a member of that
element's set in `elementToCoordinates`, and every key in an element's
set is bound to that element in `coordinateToElement`. -/
def consistentViews (m : HitRegionMap) : Prop :=
  (∀ k e, mapGet m.coordinateToElement k = some e →
    ∃ s, mapGet m.elementToCoordinates e = some s ∧ k ∈ s) ∧
  (∀ e s, mapGet m.elementToCoordinates e = some s →
    ∀ k ∈ s, mapGet m.coordinateToElement k = some e)

/-- The element's stored key set, empty when the element is unknown.
Convenience accessor used to state lemmas about `addCoordinate`. -/
def keysOf (m : HitRegionMap) (e : Elem) : List Key :=
  (mapGet m.elementToCoordinates e).getD []

/-- The attributes and computed style of a DOM element that
`InteractiveElementFinder.js` inspects.  `roleAttr` and `typeAttr` model
`getAttribute`, which returns `null` (`none`) for an absent attribute
and the (possibly empty) string otherwise; `hasHref` models
`hasAttribute('href')`; `pointerEvents` is the computed
`pointer-events` style. -/
structure ElemData where
  tagName : String
  roleAttr : Option String
  typeAttr : Option String
  hasHref : Bool
  pointerEvents : String
deriving DecidableEq

/-- ASCII lower-casing of one character, written as an explicit table
so that it evaluates inside the kernel.  DOM tag names are ASCII. -/
def lowerChar (c : Char) : Char :=
  if c = 'A' then 'a' else if c = 'B' then 'b' else if c = 'C' then 'c'
  else if c = 'D' then 'd' else if c = 'E' then 'e' else if c = 'F' then 'f'
  else if c = 'G' then 'g' else if c = 'H' then 'h' else if c = 'I' then 'i'
  else if c = 'J' then 'j' else if c = 'K' then 'k' else if c = 'L' then 'l'
  else if c = 'M' then 'm' else if c = 'N' then 'n' else if c = 'O' then 'o'
  else if c = 'P' then 'p' else if c = 'Q' then 'q' else if c = 'R' then 'r'
  else if c = 'S' then 's' else if c = 'T' then 't' else if c = 'U' then 'u'
  else if c = 'V' then 'v' else if c = 'W' then 'w' else if c = 'X' then 'x'
  else if c = 'Y' then 'y' else if c = 'Z' then 'z' else c

/-- `tagName.toLowerCase()` as used on DOM tag names (ASCII). -/
def lowerString (s : String) : String := String.mk (s.data.map lowerChar)

/-- JavaScript `a || b` on nullable strings: `null` and the empty
string are falsy. -/
def jsOrString (a b : Option String) : Option String :=
  match a with
  | some s => if s = "" then b else some s
  | none => b

/-- `getImplicitRole(element)` from `InteractiveElementFinder.js`. -/
def getImplicitRole (element : ElemData) : Option String :=
  let tagName := lowerString element.tagName
  if tagName = "button" then some "button"
  else if tagName = "input" ∧
      (element.typeAttr = some "button" ∨ element.typeAttr = some "submit" ∨
        element.typeAttr = some "reset" ∨ element.typeAttr = some "image") then
    some "button"
  else if tagName = "a" ∧ element.hasHref then some "link"
  else if tagName = "area" ∧ element.hasHref then some "link"
  else none

/-- The element-level core of `isInteractive(element)` from
`InteractiveElementFinder.js` (the nullish / non-`Element` guard lives
in `isInteractive` below): `role = explicitRole || implicitRole`, then
`role` must be `'button'` or `'link'` and the computed `pointer-events`
must not be `'none'`. -/
def isInteractiveElem (element : ElemData) : Bool :=
  let explicitRole := element.roleAttr
  let implicitRole := getImplicitRole element
  let role := jsOrString explicitRole implicitRole
  if role ≠ some "button" ∧ role ≠ some "link" then false
  else if element.pointerEvents = "none" then false
  else true

/-- The claim's reading of the effective role: the explicit `role`
attribute whenever the attribute is present, otherwise the implicit
role.  (The code instead uses JavaScript truthiness: an explicit empty
`role` falls back to the implicit role.) -/
def effectiveRoleClaim (element : ElemData) : Option String :=
  match element.roleAttr with
  | some r => some r
  | none => getImplicitRole element

/-- The `parentElement` chain above a DOM element, as far as
`findInteractiveAncestor` can see it: each ancestor's data in order,
terminated either by reaching `document.documentElement` (which the
walk's loop guard excludes from classification) or by a `null`
`parentElement` (a detached subtree). -/
inductive AncestorChain where
  | docElementEnd : AncestorChain
  | nullEnd : AncestorChain
  | cons (data : ElemData) (rest : AncestorChain) : AncestorChain
deriving DecidableEq

/-- A value passed to the finder functions: a DOM element (its own data
plus its ancestor chain), or a non-`Element` node such as a text node. -/
inductive DomNode where
  | element (data : ElemData) (ancestors : AncestorChain) : DomNode
  | textNode (content : String) : DomNode
deriving DecidableEq

/-- The `while` loop of `findInteractiveAncestor`: check the current
element, then move to `parentElement`; stop without a match when the
chain reaches `document.documentElement` (loop guard) or `null`. -/
def walkAncestors : ElemData → AncestorChain → Option (ElemData × AncestorChain)
  | data, .docElementEnd =>
    if isInteractiveElem data then some (data, .docElementEnd) else none
  | data, .nullEnd =>
    if isInteractiveElem data then some (data, .nullEnd) else none
  | data, .cons d rest =>
    if isInteractiveElem data then some (data, .cons d rest) else walkAncestors d rest

/-- `isInteractive(element)` from `InteractiveElementFinder.js`,
including the guard `!element || !(element instanceof Element)`. -/
def isInteractive : Option DomNode → Bool
  | none => false
  | some (.textNode _) => false
  | some (.element data _) => isInteractiveElem data

/-- `findInteractiveAncestor(element)` from
`InteractiveElementFinder.js`: `null` and non-`Element` inputs return
`null`; otherwise walk the ancestor chain starting at the element
itself.  The result is the found element (its data and ancestor chain). -/
def findInteractiveAncestor : Option DomNode → Option (ElemData × AncestorChain)
  | none => none
  | some (.textNode _) => none
  | some (.element data ancestors) => walkAncestors data ancestors

/-- The inclusive ancestor chain of an element as a list, nearest
first, stopping before the document root — the sequence of elements the
walk visits.  Used to state the first-match characterisation. -/
def inclusiveChain : ElemData → AncestorChain → List (ElemData × AncestorChain)
  | data, .docElementEnd => [(data, .docElementEnd)]
  | data, .nullEnd => [(data, .nullEnd)]
  | data, .cons d rest => (data, .cons d rest) :: inclusiveChain d rest

/-- The inline `style` declaration of a mutation's target element, as
read by `isRelevantMutation` (`content.js`).  Each field holds the
inline property string; an unset property reads as the empty string,
which is JavaScript-falsy. -/
structure InlineStyle where
  pointerEvents : String := ""
  position : String := ""
  display : String := ""
  visibility : String := ""
  transform : String := ""
  left : String := ""
  top : String := ""
  right : String := ""
  bottom : String := ""
deriving DecidableEq

/-- A node referenced by a mutation record's `addedNodes` /
`removedNodes` lists (element or text node).  The relevance filter
never inspects these lists. -/
inductive MutationNode where
  | elementNode (data : ElemData) : MutationNode
  | textNode (content : String) : MutationNode
deriving DecidableEq

/-- A `MutationRecord` as consumed by `isRelevantMutation`
(`content.js`): its `type` (`"childList"`, `"attributes"` or
`"characterData"`), `attributeName`, the target's inline style, and the
added/removed node lists. -/
structure MutationRecord where
  type : String
  attributeName : Option String := none
  targetStyle : InlineStyle := {}
  addedNodes : List MutationNode := []
  removedNodes : List MutationNode := []
deriving DecidableEq

/-- The inner test of `isRelevantMutation` for `style` attribute
changes: JavaScript truthiness of the listed inline style properties
(non-empty strings are truthy). -/
def styleTouchesRelevant (style : InlineStyle) : Bool :=
  style.pointerEvents != "" || style.position != "" || style.display != "" ||
    style.visibility != "" || style.transform != "" || style.left != "" ||
    style.top != "" || style.right != "" || style.bottom != ""

/-- `isRelevantMutation(mutation)` from `content.js`.  The sequential
`if` blocks of the source fall through to the next check when their
inner condition fails, which this chain reproduces. -/
def isRelevantMutation (mutation : MutationRecord) : Bool :=
  if mutation.type == "attributes" && mutation.attributeName == some "style" &&
      styleTouchesRelevant mutation.targetStyle then true
  else if mutation.type == "attributes" && mutation.attributeName == some "class" then true
  else if mutation.type == "attributes" && mutation.attributeName == some "role" then true
  else if mutation.type == "childList" then true
  else false

/-- The `MutationObserver` callback's trigger condition (`content.js`):
`mutations.some(isRelevantMutation)` decides whether the debounced
mutation handler (and hence a recalculation) is scheduled. -/
def mutationsTriggerRecalculation (mutations : List MutationRecord) : Bool :=
  mutations.any isRelevantMutation

/-- The host environment of one sampling pass (`calculate` in
`HitRegionCalculator.js`): the viewport size, the result of
`sampleCoordinate` at each point (the `document.elementFromPoint` plus
ancestor-resolution pipeline, with its internal error handling
collapsed into `none`), `document.contains`, whether the
`AbortSignal` reads aborted before iteration `i`, and the elapsed
milliseconds `performance.now() - startTime` read before iteration `i`. -/
structure CalcEnv where
  width : Nat
  height : Nat
  sample : Coordinate → Option Elem
  contains : Elem → Bool
  abortedAt : Nat → Bool
  elapsedAt : Nat → Nat

/-- The options record of `calculate`: `timeout` in milliseconds
(`none` when the caller does not supply one, in which case the code
defaults it to `5000`), whether an `onProgress` callback was supplied,
and whether an `AbortSignal` was supplied. -/
structure CalcOptions where
  timeout : Option Nat := none
  onProgress : Bool := false
  signal : Bool := false

/-- The outcome of a sampling pass: a fully populated map on normal
completion, or one of the two distinguished abort outcomes, which the
JavaScript signals by throwing `'Calculation cancelled by user'` or
`'Calculation exceeded timeout of …ms'` — in either abort case no map
is produced. -/
inductive CalcOutcome where
  | ok (hitRegionMap : HitRegionMap) : CalcOutcome
  | cancelled : CalcOutcome
  | timedOut : CalcOutcome
deriving DecidableEq

/-- The observable result of `calculate`: the outcome together with the
`(percentage, current, total)` argument triples of every `onProgress`
invocation, in order.  The percentage `(i / totalCoordinates) * 100` is
modelled as an exact rational. -/
structure CalcResult where
  outcome : CalcOutcome
  progressEvents : List (ℚ × Nat × Nat)
deriving DecidableEq

/-- One `onProgress` invocation's argument triple
`(progress, i, totalCoordinates)` with `progress = (i / total) * 100`
as an exact rational (the JavaScript value is the IEEE double closest
to it). -/
def progressEvent (total i : Nat) : ℚ × Nat × Nat :=
  (((i : ℚ) / (total : ℚ)) * 100, i, total)

/-- The progress-report guard of `calculate`:
`i % Math.floor(totalCoordinates / 10) === 0`.  When
`totalCoordinates < 10` the divisor floors to `0`, and in JavaScript
`i % 0` is `NaN`, which never equals `0` — so no progress is reported. -/
def progressGuard (total i : Nat) : Bool :=
  if total / 10 = 0 then false else i % (total / 10) == 0

/-- The sampling loop of `calculate`: before each point check the
cancellation signal and the elapsed time, then sample, then insert into
the map when an attached interactive element was found, then possibly
report progress.  `i` is the loop index, `m` the map built so far,
`events` the progress invocations so far. -/
def calcLoop (env : CalcEnv) (timeout : Nat) (hasSignal hasOnProgress : Bool)
    (total : Nat) : List Coordinate → Nat → HitRegionMap → List (ℚ × Nat × Nat) →
    CalcOutcome × List (ℚ × Nat × Nat)
  | [], _, m, events => (.ok m, events)
  | coord :: rest, i, m, events =>
    if hasSignal ∧ env.abortedAt i then (.cancelled, events)
    else if timeout < env.elapsedAt i then (.timedOut, events)
    else
      let m' :=
        match env.sample coord with
        | some element =>
          if env.contains element then (m.addCoordinate (some element) (some coord)).1 else m
        | none => m
      let events' :=
        if hasOnProgress && progressGuard total i then events ++ [progressEvent total i]
        else events
      calcLoop env timeout hasSignal hasOnProgress total rest (i + 1) m' events'

/-- `calculate(resolution, options)` from `HitRegionCalculator.js`:
default the timeout to `5000` ms, create a fresh `HitRegionMap` with
default options, build the grid once, and run the sampling loop from
index `0`.  The completion-time performance warning and the statistics
log do not affect the result and are not modelled. -/
def calculate (resolution : Nat) (options : CalcOptions) (env : CalcEnv) : CalcResult :=
  let timeout := options.timeout.getD 5000
  let hitRegionMap := HitRegionMap.new none
  let coordinates := generateCoordinateGrid env.width env.height resolution
  let totalCoordinates := coordinates.length
  let r := calcLoop env timeout options.signal options.onProgress totalCoordinates
    coordinates 0 hitRegionMap []
  { outcome := r.1, progressEvents := r.2 }

/-- The orchestrator's use of `calculate` (`content.js`,
`calculateHitRegions`): `hitRegionMap = calculate(...)` inside
`try`/`catch`, so the module-level `hitRegionMap` is replaced only when
the pass completes normally; a thrown cancellation or timeout leaves
the previously built map (if any) in place. -/
def runCalculation (previous : Option HitRegionMap) (resolution : Nat)
    (options : CalcOptions) (env : CalcEnv) : Option HitRegionMap :=
  match (calculate resolution options env).outcome with
  | .ok m => some m
  | .cancelled => previous
  | .timedOut => previous

/-- The map of a normally completed pass (used to state witnesses):
falls back to a fresh empty map on an aborted outcome. -/
def okMapOf (r : CalcResult) : HitRegionMap :=
  match r.outcome with
  | .ok m => m
  | _ => HitRegionMap.new none

/-- Concrete environment for the C1 witness: a 2×2 viewport where the
left column resolves to element `1` and the right column to element `2`. -/
def envC1 : CalcEnv :=
  { width := 2
    height := 2
    sample := fun c => if c.x = 0 then some 1 else some 2
    contains := fun _ => true
    abortedAt := fun _ => false
    elapsedAt := fun _ => 0 }

/-- Concrete environment for the C2 counterexample: the elapsed clock
reads 7000 ms before the first sample; nothing else aborts. -/
def envC2default : CalcEnv :=
  { width := 1
    height := 1
    sample := fun _ => none
    contains := fun _ => true
    abortedAt := fun _ => false
    elapsedAt := fun _ => 7000 }

/-- Concrete environment for the C2 witness: the signal reads aborted
from the second sample on. -/
def envC2 : CalcEnv :=
  { width := 2
    height := 2
    sample := fun _ => none
    contains := fun _ => true
    abortedAt := fun n => n == 1
    elapsedAt := fun _ => 0 }

/-- Concrete environment for the C8 counterexample: a 5-point grid
(viewport 5×1 at resolution 1). -/
def envC8small : CalcEnv :=
  { width := 5
    height := 1
    sample := fun _ => none
    contains := fun _ => true
    abortedAt := fun _ => false
    elapsedAt := fun _ => 0 }

/-- Concrete environment for the C8 witness: a 20-point grid (viewport
4×5 at resolution 1). -/
def envC8 : CalcEnv :=
  { width := 4
    height := 5
    sample := fun _ => none
    contains := fun _ => true
    abortedAt := fun _ => false
    elapsedAt := fun _ => 0 }

theorem digitVal_digitChar : ∀ d : Nat, d < 10 → digitVal (digitChar d) = some d := by
  decide

theorem digitChar_ne_comma : ∀ d : Nat, d < 10 → digitChar d ≠ ',' := by
  decide

theorem natDigitsAux_not_comma (fuel : Nat) :
    ∀ n, n < fuel → ∀ c ∈ natDigitsAux fuel n, c ≠ ',' := by
  induction fuel with
  | zero => intro n hn; omega
  | succ fuel ih =>
    intro n hn c hc
    rw [natDigitsAux] at hc
    by_cases h10 : n < 10
    · simp only [if_pos h10, List.mem_singleton] at hc
      subst hc; exact digitChar_ne_comma n h10
    · simp only [if_neg h10, List.mem_append, List.mem_singleton] at hc
      rcases hc with hc | hc
      · exact ih (n / 10) (by omega) c hc
      · subst hc; exact digitChar_ne_comma (n % 10) (by omega)

theorem natDigits_not_comma (n : Nat) : ∀ c ∈ natDigits n, c ≠ ',' :=
  natDigitsAux_not_comma (n + 1) n (Nat.lt_succ_self n)

theorem parseNum_natDigitsAux (fuel : Nat) :
    ∀ n, n < fuel → (natDigitsAux fuel n).foldl parseStep (some 0) = some n := by
  induction fuel with
  | zero => intro n hn; omega
  | succ fuel ih =>
    intro n hn
    rw [natDigitsAux]
    by_cases h10 : n < 10
    · simp only [if_pos h10, List.foldl_cons, List.foldl_nil, parseStep,
        digitVal_digitChar n h10, Nat.zero_mul, Nat.zero_add]
    · have hdiv : n / 10 < fuel := by
        have := Nat.div_lt_self (by omega : 0 < n) (by omega : 1 < 10)
        omega
      simp only [if_neg h10, List.foldl_append, ih (n / 10) hdiv,
        List.foldl_cons, List.foldl_nil, parseStep,
        digitVal_digitChar (n % 10) (by omega)]
      have := Nat.div_add_mod n 10
      congr 1
      omega

theorem parseNum_natDigits (n : Nat) : parseNum (natDigits n) = some n :=
  parseNum_natDigitsAux (n + 1) n (Nat.lt_succ_self n)

theorem splitComma_of_not_comma (l : List Char) (h : ∀ c ∈ l, c ≠ ',') :
    splitComma l = [l] := by
  induction l with
  | nil => rfl
  | cons c rest ih =>
    rw [splitComma, ih (fun c hc => h c (List.mem_cons_of_mem _ hc))]
    simp only [if_neg (h c (List.mem_cons_self c rest))]

theorem splitComma_ne_nil (l : List Char) : splitComma l ≠ [] := by
  induction l with
  | nil => simp [splitComma]
  | cons c rest ih =>
    rw [splitComma]
    cases h' : splitComma rest with
    | nil => exact absurd h' ih
    | cons s ss => by_cases hc : c = ',' <;> simp [hc]

theorem splitComma_append (l₁ l₂ : List Char) (h : ∀ c ∈ l₁, c ≠ ',') :
    splitComma (l₁ ++ ',' :: l₂) = l₁ :: splitComma l₂ := by
  induction l₁ with
  | nil =>
    simp only [List.nil_append]
    rw [splitComma]
    cases hsp : splitComma l₂ with
    | nil => exact absurd hsp (splitComma_ne_nil l₂)
    | cons s ss => simp
  | cons c rest ih =>
    rw [List.cons_append, splitComma, ih (fun c hc => h c (List.mem_cons_of_mem _ hc))]
    simp only [if_neg (h c (List.mem_cons_self c rest))]

/-- C7 core: decoding inverts encoding exactly on every coordinate. -/
theorem keyToCoord_coordToKey (c : Coordinate) : keyToCoord (coordToKey c) = some c := by
  rw [keyToCoord, coordToKey,
    splitComma_append (natDigits c.x) (natDigits c.y) (natDigits_not_comma c.x),
    splitComma_of_not_comma (natDigits c.y) (natDigits_not_comma c.y)]
  simp only [List.map_cons, List.map_nil, parseNum_natDigits]

theorem coordToKey_injective : Function.Injective coordToKey := by
  intro a b hab
  have ha := keyToCoord_coordToKey a
  have hb := keyToCoord_coordToKey b
  rw [hab, hb] at ha
  exact (Option.some.injEq _ _).mp ha |>.symm

theorem ceilDiv_pos_step (a r : Nat) (hr : 0 < r) (ha : 0 < a) :
    ceilDiv a r = ceilDiv (a - r) r + 1 := by
  unfold ceilDiv
  rcases le_or_lt a r with hle | hlt
  · have h1 : a + r - 1 = (a - 1) + r := by omega
    have h2 : a - r = 0 := by omega
    rw [h1, h2, Nat.add_div_right _ hr]
    have h3 : (a - 1) / r = 0 := Nat.div_eq_of_lt (by omega)
    have h4 : (0 + r - 1) / r = 0 := Nat.div_eq_of_lt (by omega)
    omega
  · have h1 : a + r - 1 = (a - 1) + r := by omega
    have h2 : a - r + r - 1 = (a - r - 1) + r := by omega
    have h3 : a - 1 = (a - r - 1) + r := by omega
    rw [h1, h2, Nat.add_div_right _ hr, Nat.add_div_right _ hr, h3,
      Nat.add_div_right _ hr]

theorem ceilDiv_zero_left (r : Nat) (hr : 0 < r) : ceilDiv 0 r = 0 := by
  unfold ceilDiv
  exact Nat.div_eq_of_lt (by omega)

theorem gridAxisAux_eq (r : Nat) (hr : 0 < r) :
    ∀ fuel limit x, limit - x ≤ fuel →
      gridAxisAux fuel limit r x =
        (List.range (ceilDiv (limit - x) r)).map fun k => x + k * r := by
  intro fuel
  induction fuel with
  | zero =>
    intro limit x hle
    have h0 : limit - x = 0 := by omega
    rw [gridAxisAux, h0, ceilDiv_zero_left r hr]
    simp
  | succ fuel ih =>
    intro limit x hle
    rw [gridAxisAux]
    by_cases hx : x < limit
    · rw [if_pos hx, if_neg (by omega : ¬ r = 0), ih limit (x + r) (by omega)]
      have hstep : ceilDiv (limit - x) r = ceilDiv (limit - (x + r)) r + 1 := by
        have h := ceilDiv_pos_step (limit - x) r hr (by omega)
        have heq : limit - x - r = limit - (x + r) := by omega
        rw [heq] at h
        exact h
      rw [hstep, List.range_succ_eq_map]
      simp only [List.map_cons, Nat.zero_mul, Nat.add_zero, List.map_map]
      congr 1
      apply List.map_congr_left
      intro k _
      simp only [Function.comp_apply, Nat.succ_mul, Nat.succ_eq_add_one]
      omega
    · rw [if_neg hx]
      have h0 : limit - x = 0 := by omega
      rw [h0, ceilDiv_zero_left r hr]
      simp

theorem gridAxis_eq (limit r : Nat) (hr : 0 < r) :
    gridAxis limit r = (List.range (ceilDiv limit r)).map fun k => k * r := by
  unfold gridAxis
  rw [gridAxisAux_eq r hr limit limit 0 (by omega)]
  simp

theorem mul_lt_of_lt_ceilDiv (k a r : Nat) (hr : 0 < r) (hk : k < ceilDiv a r) :
    k * r < a := by
  unfold ceilDiv at hk
  have h2 : (k + 1) * r ≤ a + r - 1 := (Nat.le_div_iff_mul_le hr).mp hk
  have h3 : k * r + r ≤ a + r - 1 := by rw [Nat.succ_mul] at h2; omega
  have ha : 0 < a := by
    by_contra hcon
    have ha0 : a = 0 := by omega
    subst ha0
    have := Nat.div_eq_of_lt (show 0 + r - 1 < r by omega)
    omega
  omega

theorem gridAxis_mem (limit r x : Nat) (hr : 0 < r) (hx : x ∈ gridAxis limit r) :
    x < limit := by
  rw [gridAxis_eq limit r hr] at hx
  simp only [List.mem_map, List.mem_range] at hx
  obtain ⟨k, hk, rfl⟩ := hx
  exact mul_lt_of_lt_ceilDiv k limit r hr hk

theorem gridAxis_nodup (limit r : Nat) (hr : 0 < r) : (gridAxis limit r).Nodup := by
  rw [gridAxis_eq limit r hr]
  exact (List.nodup_range _).map fun a b hab => Nat.eq_of_mul_eq_mul_right hr hab

theorem gridAxis_length (limit r : Nat) (hr : 0 < r) :
    (gridAxis limit r).length = ceilDiv limit r := by
  rw [gridAxis_eq limit r hr]
  simp

theorem gridAxis_zero_mem (limit r : Nat) (hr : 0 < r) (hl : 0 < limit) :
    0 ∈ gridAxis limit r := by
  rw [gridAxis_eq limit r hr]
  refine List.mem_map.mpr ⟨0, List.mem_range.mpr ?_, by simp⟩
  have h := (Nat.le_div_iff_mul_le hr).mpr (show 1 * r ≤ limit + r - 1 by omega)
  unfold ceilDiv
  omega

theorem length_flatMap_const {α β : Type} (l : List α) (f : α → List β) (n : Nat)
    (h : ∀ a ∈ l, (f a).length = n) : (l.flatMap f).length = l.length * n := by
  induction l with
  | nil => simp
  | cons a t ih =>
    rw [List.flatMap_cons, List.length_append, ih fun b hb => h b (List.mem_cons_of_mem _ hb),
      h a (List.mem_cons_self a t), List.length_cons, Nat.succ_mul]
    omega

theorem generateCoordinateGrid_nodup (W H r : Nat) (hr : 0 < r) :
    (generateCoordinateGrid W H r).Nodup := by
  unfold generateCoordinateGrid
  rw [List.nodup_flatMap]
  constructor
  · intro x _
    exact (gridAxis_nodup H r hr).map fun a b hab => congrArg Coordinate.y hab
  · refine List.Pairwise.imp ?_ (gridAxis_nodup W r hr)
    intro a b hab c hca hcb
    simp only [List.mem_map] at hca hcb
    obtain ⟨y₁, _, hy₁⟩ := hca
    obtain ⟨y₂, _, hy₂⟩ := hcb
    exact hab ((congrArg Coordinate.x hy₁).trans (congrArg Coordinate.x hy₂).symm)

theorem gridAxisAux_resolution_zero (fuel limit x : Nat) :
    gridAxisAux fuel limit 0 x = [] := by
  cases fuel with
  | zero => rfl
  | succ fuel =>
    rw [gridAxisAux]
    by_cases hx : x < limit
    · rw [if_pos hx, if_pos rfl]
    · rw [if_neg hx]

theorem generateCoordinateGrid_resolution_zero (W H : Nat) :
    generateCoordinateGrid W H 0 = [] := by
  unfold generateCoordinateGrid gridAxis
  rw [gridAxisAux_resolution_zero]
  rfl

/-- C3: for a viewport of positive integer dimensions `W×H` and an
integer resolution `r` in `[1, 100]`, `generateCoordinateGrid` yields
exactly `ceil(W/r) * ceil(H/r)` points, with no duplicates, each with
`x ∈ [0, W)` and `y ∈ [0, H)`; and the grid always contains `(0, 0)` —
in particular when `r` is at least the viewport dimensions.  (The order
is deterministic because the grid is a pure function of `W`, `H`, `r`.) -/
theorem generateCoordinateGrid_spec (W H r : Nat) (hW : 0 < W) (hH : 0 < H)
    (hr1 : 1 ≤ r) (_hr100 : r ≤ 100) :
    (generateCoordinateGrid W H r).length = ceilDiv W r * ceilDiv H r ∧
    (generateCoordinateGrid W H r).Nodup ∧
    (∀ c ∈ generateCoordinateGrid W H r, c.x < W ∧ c.y < H) ∧
    createCoordinate 0 0 ∈ generateCoordinateGrid W H r := by
  have hr : 0 < r := hr1
  refine ⟨?_, ?_, ?_, ?_⟩
  · unfold generateCoordinateGrid
    rw [length_flatMap_const _ _ (ceilDiv H r) fun a _ => by
        rw [List.length_map]; exact gridAxis_length H r hr,
      gridAxis_length W r hr]
  · exact generateCoordinateGrid_nodup W H r hr
  · intro c hc
    unfold generateCoordinateGrid at hc
    rw [List.mem_flatMap] at hc
    obtain ⟨x, hx, hc⟩ := hc
    rw [List.mem_map] at hc
    obtain ⟨y, hy, rfl⟩ := hc
    exact ⟨gridAxis_mem W r x hr hx, gridAxis_mem H r y hr hy⟩
  · unfold generateCoordinateGrid
    rw [List.mem_flatMap]
    exact ⟨0, gridAxis_zero_mem W r hr hW,
      List.mem_map.mpr ⟨0, gridAxis_zero_mem H r hr hH, rfl⟩⟩

/-- Witness for C3 at the degenerate viewport `3×2` with resolution
`100`, which is at least both viewport dimensions. -/
theorem generateCoordinateGrid_spec_witness :
    (generateCoordinateGrid 3 2 100).length = ceilDiv 3 100 * ceilDiv 2 100 ∧
    (generateCoordinateGrid 3 2 100).Nodup ∧
    (∀ c ∈ generateCoordinateGrid 3 2 100, c.x < 3 ∧ c.y < 2) ∧
    createCoordinate 0 0 ∈ generateCoordinateGrid 3 2 100 :=
  generateCoordinateGrid_spec 3 2 100 (by decide) (by decide) (by decide) (by decide)

theorem mapGet_set_self {α β : Type} [DecidableEq α] (l : List (α × β)) (k : α) (v : β) :
    mapGet (mapSet l k v) k = some v := by
  induction l with
  | nil => simp [mapSet, mapGet]
  | cons p rest ih =>
    obtain ⟨k', v'⟩ := p
    rw [mapSet]
    by_cases hk : k = k'
    · rw [if_pos hk, mapGet, if_pos hk]
    · rw [if_neg hk, mapGet, if_neg hk]
      exact ih

theorem mapGet_set_ne {α β : Type} [DecidableEq α] (l : List (α × β)) (k k' : α) (v : β)
    (h : k' ≠ k) : mapGet (mapSet l k v) k' = mapGet l k' := by
  induction l with
  | nil => simp [mapSet, mapGet, if_neg h]
  | cons p rest ih =>
    obtain ⟨k₀, v₀⟩ := p
    rw [mapSet]
    by_cases hk : k = k₀
    · subst hk
      rw [if_pos rfl, mapGet, mapGet, if_neg h, if_neg h]
    · rw [if_neg hk, mapGet, mapGet]
      by_cases hk' : k' = k₀
      · rw [if_pos hk', if_pos hk']
      · rw [if_neg hk', if_neg hk']
        exact ih

theorem mem_setAdd {α : Type} [DecidableEq α] (s : List α) (x y : α) :
    y ∈ setAdd s x ↔ y ∈ s ∨ y = x := by
  unfold setAdd
  by_cases hx : x ∈ s
  · rw [if_pos hx]
    constructor
    · exact Or.inl
    · rintro (h | rfl)
      · exact h
      · exact hx
  · rw [if_neg hx]
    simp

theorem setAdd_self_mem {α : Type} [DecidableEq α] (s : List α) (x : α) :
    x ∈ setAdd s x := (mem_setAdd s x x).mpr (Or.inr rfl)

/-- C7: for every coordinate (with valid numeric components, which the
`Nat` model makes all of them), decoding the string key produced by
`coordToKey` recovers the coordinate exactly — the encoding used as the
map key is lossless and inverts exactly. -/
theorem coordinate_key_roundtrip (c : Coordinate) :
    keyToCoord (coordToKey c) = some c :=
  keyToCoord_coordToKey c

theorem walkAncestors_eq_find (chain : AncestorChain) :
    ∀ data, walkAncestors data chain =
      (inclusiveChain data chain).find? fun n => isInteractiveElem n.1 := by
  induction chain with
  | docElementEnd =>
    intro data
    by_cases h : isInteractiveElem data
    · simp [walkAncestors, inclusiveChain, List.find?_cons_of_pos, h]
    · simp [walkAncestors, inclusiveChain, List.find?_cons_of_neg, h]
  | nullEnd =>
    intro data
    by_cases h : isInteractiveElem data
    · simp [walkAncestors, inclusiveChain, List.find?_cons_of_pos, h]
    · simp [walkAncestors, inclusiveChain, List.find?_cons_of_neg, h]
  | cons d rest ih =>
    intro data
    by_cases h : isInteractiveElem data
    · simp [walkAncestors, inclusiveChain, List.find?_cons_of_pos, h]
    · simp only [walkAncestors, if_neg h, inclusiveChain]
      rw [List.find?_cons_of_neg _ (by simpa using h)]
      exact ih d

/-- C4: `findInteractiveAncestor` walks the ancestor chain starting at
the node itself toward the document root and returns the first node for
which `isInteractive` holds (the `find?` over the inclusive ancestor
chain), returning `none` when the root (or a null parent) is reached
without a match; in particular, on a node whose parent and grandparent
are both interactive it returns the parent, on a node with no
interactive inclusive ancestor it returns `none`, and on a null input
it returns `none`. -/
theorem findInteractiveAncestor_spec :
    (∀ data chain, findInteractiveAncestor (some (.element data chain)) =
      (inclusiveChain data chain).find? fun n => isInteractiveElem n.1) ∧
    (∀ d₀ d₁ d₂ rest, isInteractiveElem d₀ = false → isInteractiveElem d₁ = true →
      isInteractiveElem d₂ = true →
      findInteractiveAncestor (some (.element d₀ (.cons d₁ (.cons d₂ rest)))) =
        some (d₁, .cons d₂ rest)) ∧
    (∀ data chain, (∀ n ∈ inclusiveChain data chain, isInteractiveElem n.1 = false) →
      findInteractiveAncestor (some (.element data chain)) = none) ∧
    findInteractiveAncestor none = none := by
  refine ⟨fun data chain => walkAncestors_eq_find chain data, ?_, ?_, rfl⟩
  · intro d₀ d₁ d₂ rest h₀ h₁ _
    simp [findInteractiveAncestor, walkAncestors, h₀, h₁]
  · intro data chain hall
    have h := walkAncestors_eq_find chain data
    have hnone : (inclusiveChain data chain).find?
        (fun n => isInteractiveElem n.1) = none :=
      List.find?_eq_none.mpr fun n hn => by simp [hall n hn]
    simpa [findInteractiveAncestor, hnone] using h

/-- Witness for C4: a non-interactive leaf under an interactive button
whose own parent is an interactive anchor; the walk returns the button
(the nearest interactive ancestor), not the anchor. -/
theorem findInteractiveAncestor_spec_witness :
    findInteractiveAncestor (some (.element ⟨"div", none, none, false, ""⟩
      (.cons ⟨"button", none, none, false, "auto"⟩
        (.cons ⟨"a", none, none, true, "auto"⟩ .docElementEnd)))) =
      some (⟨"button", none, none, false, "auto"⟩,
        .cons ⟨"a", none, none, true, "auto"⟩ .docElementEnd) :=
  findInteractiveAncestor_spec.2.1 _ _ _ _ (by decide) (by decide) (by decide)

/-- C5 counterexample: the claim reads the effective role as the
explicit `role` attribute whenever the attribute is present.  On
`<button role="">` (explicit role present but empty) the code's
JavaScript-truthiness fallback uses the implicit role `button` and
classifies the element interactive, while the claim's effective role is
the empty string, which is neither `button` nor `link`. -/
theorem isInteractive_explicit_empty_role_counterexample :
    ¬ (∀ e : ElemData, isInteractiveElem e = true ↔
        ((effectiveRoleClaim e = some "button" ∨ effectiveRoleClaim e = some "link") ∧
          e.pointerEvents ≠ "none")) :=
  fun h => absurd (h ⟨"button", some "", none, false, "auto"⟩) (by decide)

/-- C5 (amended): an element is interactive iff its effective role —
`explicitRole || implicitRole` with JavaScript truthiness, so an
explicit but empty `role` attribute falls back to the implicit role —
equals `button` or `link` and its computed `pointer-events` is not
`none`; an element with `pointer-events: none` and `role="button"` is
not interactive, and non-element inputs (null, text nodes) are never
interactive. -/
theorem isInteractive_spec :
    (∀ e : ElemData, isInteractiveElem e = true ↔
      ((jsOrString e.roleAttr (getImplicitRole e) = some "button" ∨
        jsOrString e.roleAttr (getImplicitRole e) = some "link") ∧
        e.pointerEvents ≠ "none")) ∧
    (∀ e : ElemData, e.roleAttr = some "button" → e.pointerEvents = "none" →
      isInteractiveElem e = false) ∧
    isInteractive none = false ∧
    (∀ s, isInteractive (some (.textNode s)) = false) := by
  refine ⟨?_, ?_, rfl, fun s => rfl⟩
  · intro e
    simp only [isInteractiveElem]
    by_cases hrole : jsOrString e.roleAttr (getImplicitRole e) ≠ some "button" ∧
        jsOrString e.roleAttr (getImplicitRole e) ≠ some "link"
    · rw [if_pos hrole]
      simp only [Bool.false_eq_true, false_iff]
      tauto
    · rw [if_neg hrole]
      by_cases hpe : e.pointerEvents = "none"
      · rw [if_pos hpe]
        simp only [Bool.false_eq_true, false_iff]
        tauto
      · rw [if_neg hpe]
        refine ⟨fun _ => ⟨?_, hpe⟩, fun _ => rfl⟩
        tauto
  · intro e h1 h2
    simp [isInteractiveElem, jsOrString, h1, h2]

/-- Witness for C5: `role="button"` with `pointer-events: none` is
classified not-interactive. -/
theorem isInteractive_spec_witness :
    isInteractiveElem ⟨"div", some "button", none, false, "none"⟩ = false :=
  isInteractive_spec.2.1 ⟨"div", some "button", none, false, "none"⟩ rfl rfl

/-- C9 counterexample: a mutation record whose only change is the
addition of a text node has `type == "childList"`, so the filter
classifies it relevant and the observer callback schedules the
debounced recalculation — contrary to the claim that it is classified
not relevant. -/
theorem textNode_addition_relevant_counterexample :
    isRelevantMutation
      { type := "childList", attributeName := none, targetStyle := {},
        addedNodes := [MutationNode.textNode "hello"], removedNodes := [] } = true ∧
    mutationsTriggerRecalculation
      [{ type := "childList", attributeName := none, targetStyle := {},
         addedNodes := [MutationNode.textNode "hello"], removedNodes := [] }] = true := by
  exact ⟨by decide, by decide⟩

/-- C9 (amended): the filter classifies a mutation relevant iff it is a
structural (`childList`) change — which includes text-node additions —
or an attribute change to `class`, `role`, or `style` where the inline
style touches a pointer-interaction or positioning property; pure text
content (`characterData`) mutations are never relevant. -/
theorem isRelevantMutation_spec :
    (∀ m : MutationRecord, isRelevantMutation m = true ↔
      (m.type = "childList" ∨
        (m.type = "attributes" ∧
          (m.attributeName = some "class" ∨ m.attributeName = some "role" ∨
            (m.attributeName = some "style" ∧
              styleTouchesRelevant m.targetStyle = true))))) ∧
    (∀ a t ad rd, isRelevantMutation
      { type := "characterData", attributeName := a, targetStyle := t,
        addedNodes := ad, removedNodes := rd } = false) := by
  constructor
  · intro m
    simp only [isRelevantMutation, Bool.and_eq_true, beq_iff_eq]
    split_ifs with h1 h2 h3 h4 <;>
      simp_all [Bool.and_eq_true, beq_iff_eq]
  · intro a t ad rd
    simp [isRelevantMutation]

theorem addCoordinate_blocked_result (m : HitRegionMap) (e : Elem) (c : Coordinate)
    (s : List Key) (hs : mapGet m.elementToCoordinates e = some s)
    (hcap : m.maxCoordinatesPerElement ≤ s.length) :
    (m.addCoordinate (some e) (some c)).2 = false ∧
    (m.addCoordinate (some e) (some c)).1.elementToCoordinates = m.elementToCoordinates ∧
    (m.addCoordinate (some e) (some c)).1.coordinateToElement = m.coordinateToElement ∧
    (s.length = m.maxCoordinatesPerElement →
      (m.addCoordinate (some e) (some c)).1.warnings = m.warnings + 1) := by
  simp only [HitRegionMap.addCoordinate, hs]
  rw [if_pos hcap]
  by_cases heq : s.length = m.maxCoordinatesPerElement
  · rw [if_pos heq]
    exact ⟨rfl, rfl, rfl, fun _ => rfl⟩
  · rw [if_neg heq]
    exact ⟨rfl, rfl, rfl, fun h => absurd h heq⟩

/-- C6 counterexample: the warning is not one-time.  With a cap of `1`,
the second and third `addCoordinate` calls for the same element are
both dropped and each emits the limit warning, because the guard
`coordinates.size === maxCoordinatesPerElement` holds on every dropped
call once the cap is reached (the set never grows past the cap). -/
theorem addCoordinate_repeated_warning_counterexample :
    (((HitRegionMap.new (some 1)).addCoordinate (some 7) (some ⟨0, 0⟩)).1.addCoordinate
        (some 7) (some ⟨0, 1⟩)).2 = false ∧
    (((HitRegionMap.new (some 1)).addCoordinate (some 7) (some ⟨0, 0⟩)).1.addCoordinate
        (some 7) (some ⟨0, 1⟩)).1.warnings = 1 ∧
    ((((HitRegionMap.new (some 1)).addCoordinate (some 7) (some ⟨0, 0⟩)).1.addCoordinate
        (some 7) (some ⟨0, 1⟩)).1.addCoordinate (some 7) (some ⟨0, 2⟩)).2 = false ∧
    ((((HitRegionMap.new (some 1)).addCoordinate (some 7) (some ⟨0, 0⟩)).1.addCoordinate
        (some 7) (some ⟨0, 1⟩)).1.addCoordinate (some 7) (some ⟨0, 2⟩)).1.warnings = 2 := by
  refine ⟨by decide, by decide, by decide, by decide⟩

/-- C6 (amended): the per-element coordinate count is capped
(constructor default `10000`); once an element's stored set has reached
the cap, every further `addCoordinate` call for that element returns
`false` and leaves both views (`elementToCoordinates` and
`coordinateToElement`) unchanged — the coordinate is dropped with a
warning signal, not an error, the warning being emitted on each dropped
call (not once). -/
theorem addCoordinate_cap_spec (m : HitRegionMap) (e : Elem) (c : Coordinate)
    (s : List Key) (hs : mapGet m.elementToCoordinates e = some s)
    (hcap : m.maxCoordinatesPerElement ≤ s.length) :
    (m.addCoordinate (some e) (some c)).2 = false ∧
    (m.addCoordinate (some e) (some c)).1.elementToCoordinates = m.elementToCoordinates ∧
    (m.addCoordinate (some e) (some c)).1.coordinateToElement = m.coordinateToElement ∧
    (s.length = m.maxCoordinatesPerElement →
      (m.addCoordinate (some e) (some c)).1.warnings = m.warnings + 1) ∧
    (HitRegionMap.new none).maxCoordinatesPerElement = 10000 := by
  obtain ⟨h1, h2, h3, h4⟩ := addCoordinate_blocked_result m e c s hs hcap
  exact ⟨h1, h2, h3, h4, rfl⟩

/-- Witness for C6: a map whose element `7` sits at a cap of `1`; the
next call is dropped. -/
theorem addCoordinate_cap_spec_witness :
    (((HitRegionMap.new (some 1)).addCoordinate (some 7) (some ⟨0, 0⟩)).1.addCoordinate
        (some 7) (some ⟨0, 1⟩)).2 = false :=
  (addCoordinate_cap_spec ((HitRegionMap.new (some 1)).addCoordinate (some 7) (some ⟨0, 0⟩)).1
    7 ⟨0, 1⟩ [coordToKey ⟨0, 0⟩] (by decide) (by decide)).1

theorem getCoordinateCount_keysOf (m : HitRegionMap) (e : Elem) :
    m.getCoordinateCount e = (keysOf m e).length := by
  unfold HitRegionMap.getCoordinateCount keysOf
  cases mapGet m.elementToCoordinates e <;> rfl

theorem addCoordinate_unblocked_result (m : HitRegionMap) (e : Elem) (c : Coordinate)
    (h : m.getCoordinateCount e < m.maxCoordinatesPerElement) :
    (m.addCoordinate (some e) (some c)).2 = true ∧
    (m.addCoordinate (some e) (some c)).1.coordinateToElement
      = mapSet m.coordinateToElement (coordToKey c) e ∧
    mapGet (m.addCoordinate (some e) (some c)).1.elementToCoordinates e
      = some (setAdd (keysOf m e) (coordToKey c)) ∧
    (∀ e', e' ≠ e → mapGet (m.addCoordinate (some e) (some c)).1.elementToCoordinates e'
      = mapGet m.elementToCoordinates e') ∧
    (m.addCoordinate (some e) (some c)).1.maxCoordinatesPerElement
      = m.maxCoordinatesPerElement := by
  cases hreg : mapGet m.elementToCoordinates e with
  | some s =>
    have hcount : m.getCoordinateCount e = s.length := by
      unfold HitRegionMap.getCoordinateCount
      rw [hreg]
    have hk : keysOf m e = s := by
      unfold keysOf
      rw [hreg]
      rfl
    simp only [HitRegionMap.addCoordinate, hreg]
    rw [if_neg (by omega)]
    refine ⟨rfl, rfl, ?_, ?_, rfl⟩
    · rw [hk]
      exact mapGet_set_self _ _ _
    · intro e' he'
      exact mapGet_set_ne _ _ _ _ he'
  | none =>
    have hcount : m.getCoordinateCount e = 0 := by
      unfold HitRegionMap.getCoordinateCount
      rw [hreg]
    have hk : keysOf m e = [] := by
      unfold keysOf
      rw [hreg]
      rfl
    simp only [HitRegionMap.addCoordinate, hreg]
    rw [if_neg (show ¬ m.maxCoordinatesPerElement ≤ List.length ([] : List Key) by
      simp only [List.length_nil]; omega)]
    refine ⟨rfl, rfl, ?_, ?_, rfl⟩
    · rw [hk]
      exact mapGet_set_self _ _ _
    · intro e' he'
      rw [mapGet_set_ne _ _ _ _ he', mapGet_set_ne _ _ _ _ he']

/-- C10: for distinct elements `e₁ ≠ e₂` both below their caps, after
`addCoordinate(e₁, c)` then `addCoordinate(e₂, c)`, `getElement(c)`
returns `e₂` (last write wins in `coordinateToElement`) while `c` is
still contained in `getCoordinates(e₁)` as well as in
`getCoordinates(e₂)`. -/
theorem addCoordinate_last_write_wins (m : HitRegionMap) (e₁ e₂ : Elem) (c : Coordinate)
    (hne : e₁ ≠ e₂)
    (h₁ : m.getCoordinateCount e₁ < m.maxCoordinatesPerElement)
    (h₂ : m.getCoordinateCount e₂ < m.maxCoordinatesPerElement) :
    ((m.addCoordinate (some e₁) (some c)).1.addCoordinate (some e₂) (some c)).1.getElement
        (some c) = some e₂ ∧
    c ∈ ((m.addCoordinate (some e₁) (some c)).1.addCoordinate (some e₂)
        (some c)).1.getCoordinates (some e₁) ∧
    c ∈ ((m.addCoordinate (some e₁) (some c)).1.addCoordinate (some e₂)
        (some c)).1.getCoordinates (some e₂) := by
  obtain ⟨_, hcte₁, hself₁, hother₁, hmax₁⟩ := addCoordinate_unblocked_result m e₁ c h₁
  set m' := (m.addCoordinate (some e₁) (some c)).1 with hm'
  have h₂' : m'.getCoordinateCount e₂ < m'.maxCoordinatesPerElement := by
    rw [getCoordinateCount_keysOf, hmax₁]
    unfold keysOf
    rw [hother₁ e₂ (Ne.symm hne)]
    rw [getCoordinateCount_keysOf] at h₂
    unfold keysOf at h₂
    exact h₂
  obtain ⟨_, hcte₂, hself₂, hother₂, _⟩ := addCoordinate_unblocked_result m' e₂ c h₂'
  refine ⟨?_, ?_, ?_⟩
  · simp only [HitRegionMap.getElement]
    rw [hcte₂]
    exact mapGet_set_self _ _ _
  · simp only [HitRegionMap.getCoordinates]
    rw [hother₂ e₁ hne, hself₁]
    exact List.mem_filterMap.mpr
      ⟨coordToKey c, setAdd_self_mem _ _, keyToCoord_coordToKey c⟩
  · simp only [HitRegionMap.getCoordinates]
    rw [hself₂]
    exact List.mem_filterMap.mpr
      ⟨coordToKey c, setAdd_self_mem _ _, keyToCoord_coordToKey c⟩

/-- Witness for C10 on the empty default map with elements `1` and `2`
and coordinate `(3, 4)`. -/
theorem addCoordinate_last_write_wins_witness :
    (((HitRegionMap.new none).addCoordinate (some 1) (some ⟨3, 4⟩)).1.addCoordinate
        (some 2) (some ⟨3, 4⟩)).1.getElement (some ⟨3, 4⟩) = some 2 ∧
    (⟨3, 4⟩ : Coordinate) ∈ (((HitRegionMap.new none).addCoordinate (some 1)
        (some ⟨3, 4⟩)).1.addCoordinate (some 2) (some ⟨3, 4⟩)).1.getCoordinates (some 1) ∧
    (⟨3, 4⟩ : Coordinate) ∈ (((HitRegionMap.new none).addCoordinate (some 1)
        (some ⟨3, 4⟩)).1.addCoordinate (some 2) (some ⟨3, 4⟩)).1.getCoordinates (some 2) :=
  addCoordinate_last_write_wins (HitRegionMap.new none) 1 2 ⟨3, 4⟩
    (by decide) (by decide) (by decide)

theorem addCoordinate_max_eq (m : HitRegionMap) (eo : Option Elem) (co : Option Coordinate) :
    (m.addCoordinate eo co).1.maxCoordinatesPerElement = m.maxCoordinatesPerElement := by
  cases eo with
  | none => rfl
  | some e =>
    cases co with
    | none => rfl
    | some c =>
      cases hreg : mapGet m.elementToCoordinates e <;>
        simp only [HitRegionMap.addCoordinate, hreg] <;>
        split <;> first | (split <;> rfl) | rfl

theorem consistentViews_new (optMax : Option Nat) :
    consistentViews (HitRegionMap.new optMax) := by
  constructor
  · intro k e h
    exact absurd h (by simp [HitRegionMap.new, mapGet])
  · intro e s h
    exact absurd h (by simp [HitRegionMap.new, mapGet])

theorem addCoordinate_preserves (m : HitRegionMap) (e : Elem) (c : Coordinate)
    (hmax : 0 < m.maxCoordinatesPerElement)
    (hcons : consistentViews m)
    (hfresh : mapGet m.coordinateToElement (coordToKey c) = none) :
    consistentViews (m.addCoordinate (some e) (some c)).1 ∧
    (∀ k, k ≠ coordToKey c →
      mapGet (m.addCoordinate (some e) (some c)).1.coordinateToElement k
        = mapGet m.coordinateToElement k) := by
  obtain ⟨hc1, hc2⟩ := hcons
  by_cases hroom : m.getCoordinateCount e < m.maxCoordinatesPerElement
  · obtain ⟨_, hcte, hself, hother, _⟩ := addCoordinate_unblocked_result m e c hroom
    refine ⟨⟨?_, ?_⟩, ?_⟩
    · intro k e' hk
      rw [hcte] at hk
      by_cases hkey : k = coordToKey c
      · subst hkey
        rw [mapGet_set_self] at hk
        have he' : e' = e := by
          injection hk with h
          exact h.symm
        subst he'
        exact ⟨setAdd (keysOf m e') (coordToKey c), hself, setAdd_self_mem _ _⟩
      · rw [mapGet_set_ne _ _ _ _ hkey] at hk
        obtain ⟨s₀, hs₀, hks₀⟩ := hc1 k e' hk
        by_cases he' : e' = e
        · subst he'
          refine ⟨setAdd (keysOf m e') (coordToKey c), hself, ?_⟩
          have hkeys : keysOf m e' = s₀ := by
            unfold keysOf
            rw [hs₀]
            rfl
          rw [hkeys]
          exact (mem_setAdd _ _ _).mpr (Or.inl hks₀)
        · exact ⟨s₀, by rw [hother e' he']; exact hs₀, hks₀⟩
    · intro e' s' hs' k hk
      by_cases he' : e' = e
      · subst he'
        rw [hself] at hs'
        have hs'' : setAdd (keysOf m e') (coordToKey c) = s' := by
          injection hs'
        subst hs''
        rcases (mem_setAdd _ _ _).mp hk with hk | hk
        · have hold : mapGet m.coordinateToElement k = some e' := by
            cases hreg : mapGet m.elementToCoordinates e' with
            | some s₀ =>
              have hkeys : keysOf m e' = s₀ := by
                unfold keysOf
                rw [hreg]
                rfl
              rw [hkeys] at hk
              exact hc2 e' s₀ hreg k hk
            | none =>
              have hkeys : keysOf m e' = [] := by
                unfold keysOf
                rw [hreg]
                rfl
              rw [hkeys] at hk
              exact absurd hk (List.not_mem_nil k)
          have hkne : k ≠ coordToKey c := by
            intro hkeq
            rw [hkeq, hfresh] at hold
            exact Option.noConfusion hold
          rw [hcte, mapGet_set_ne _ _ _ _ hkne]
          exact hold
        · subst hk
          rw [hcte]
          exact mapGet_set_self _ _ _
      · rw [hother e' he'] at hs'
        have hold := hc2 e' s' hs' k hk
        have hkne : k ≠ coordToKey c := by
          intro hkeq
          rw [hkeq, hfresh] at hold
          exact Option.noConfusion hold
        rw [hcte, mapGet_set_ne _ _ _ _ hkne]
        exact hold
    · intro k hkne
      rw [hcte]
      exact mapGet_set_ne _ _ _ _ hkne
  · -- the cap is already reached: the element must be present with a
    -- full set, so neither view changes
    have hcount : m.maxCoordinatesPerElement ≤ m.getCoordinateCount e := by omega
    cases hreg : mapGet m.elementToCoordinates e with
    | none =>
      exfalso
      have : m.getCoordinateCount e = 0 := by
        unfold HitRegionMap.getCoordinateCount
        rw [hreg]
      omega
    | some s =>
      have hslen : m.maxCoordinatesPerElement ≤ s.length := by
        have : m.getCoordinateCount e = s.length := by
          unfold HitRegionMap.getCoordinateCount
          rw [hreg]
        omega
      obtain ⟨_, hetc, hcte, _⟩ := addCoordinate_blocked_result m e c s hreg hslen
      exact ⟨by rw [consistentViews, hetc, hcte]; exact ⟨hc1, hc2⟩,
        fun k _ => by rw [hcte]⟩

theorem calcLoop_ok_consistent (env : CalcEnv) (timeout : Nat)
    (hasSignal hasOnProgress : Bool) (total : Nat) :
    ∀ coords i m events, consistentViews m → 0 < m.maxCoordinatesPerElement →
      coords.Nodup →
      (∀ c ∈ coords, mapGet m.coordinateToElement (coordToKey c) = none) →
      ∀ m' events',
        calcLoop env timeout hasSignal hasOnProgress total coords i m events
          = (.ok m', events') →
        consistentViews m' := by
  intro coords
  induction coords with
  | nil =>
    intro i m events hcons hmax hnodup hfresh m' events' hloop
    rw [calcLoop] at hloop
    have hm : CalcOutcome.ok m = CalcOutcome.ok m' := congrArg Prod.fst hloop
    injection hm with hm
    rw [← hm]
    exact hcons
  | cons c rest ih =>
    intro i m events hcons hmax hnodup hfresh m' events' hloop
    rw [calcLoop] at hloop
    by_cases hab : hasSignal = true ∧ env.abortedAt i = true
    · rw [if_pos hab] at hloop
      exact absurd (congrArg Prod.fst hloop) (by simp)
    · rw [if_neg hab] at hloop
      by_cases hto : timeout < env.elapsedAt i
      · rw [if_pos hto] at hloop
        exact absurd (congrArg Prod.fst hloop) (by simp)
      · rw [if_neg hto] at hloop
        have hrest := List.Nodup.of_cons hnodup
        have hcnotin : c ∉ rest := (List.nodup_cons.mp hnodup).1
        cases hsamp : env.sample c with
        | none =>
          simp only [hsamp] at hloop
          exact ih (i + 1) m _ hcons hmax hrest
            (fun c' hc' => hfresh c' (List.mem_cons_of_mem _ hc')) m' events' hloop
        | some el =>
          simp only [hsamp] at hloop
          by_cases hcont : env.contains el = true
          · rw [if_pos hcont] at hloop
            have hfc := hfresh c (List.mem_cons_self c rest)
            obtain ⟨hcons₂, hpres⟩ := addCoordinate_preserves m el c hmax hcons hfc
            refine ih (i + 1) _ _ hcons₂ ?_ hrest ?_ m' events' hloop
            · rw [addCoordinate_max_eq]
              exact hmax
            · intro c' hc'
              have hne : coordToKey c' ≠ coordToKey c := by
                intro hk
                exact hcnotin (coordToKey_injective hk ▸ hc')
              rw [hpres _ hne]
              exact hfresh c' (List.mem_cons_of_mem _ hc')
          · rw [if_neg hcont] at hloop
            exact ih (i + 1) m _ hcons hmax hrest
              (fun c' hc' => hfresh c' (List.mem_cons_of_mem _ hc')) m' events' hloop

/-- C1: after a `calculate` pass completes normally (outcome `ok`), the
two views of the returned map mirror one relation: every coordinate key
bound to an element in `coordinateToElement` is a member of that
element's set in `elementToCoordinates`, and conversely every key in an
element's set is bound to that element in `coordinateToElement`.  (Each
grid point is inserted at most once per pass because the grid has no
duplicates and the key encoding is injective, so the claim's proviso
holds unconditionally.) -/
theorem calculate_index_consistency (resolution : Nat) (options : CalcOptions)
    (env : CalcEnv) (m : HitRegionMap)
    (h : (calculate resolution options env).outcome = CalcOutcome.ok m) :
    consistentViews m := by
  unfold calculate at h
  have hnodup : (generateCoordinateGrid env.width env.height resolution).Nodup := by
    by_cases hres : resolution = 0
    · rw [hres, generateCoordinateGrid_resolution_zero]
      exact List.nodup_nil
    · exact generateCoordinateGrid_nodup env.width env.height resolution
        (Nat.pos_of_ne_zero hres)
  exact calcLoop_ok_consistent env (options.timeout.getD 5000) options.signal
    options.onProgress (generateCoordinateGrid env.width env.height resolution).length
    (generateCoordinateGrid env.width env.height resolution) 0 (HitRegionMap.new none) []
    (consistentViews_new none) (by decide) hnodup
    (fun c _ => rfl) m
    (calcLoop env (options.timeout.getD 5000) options.signal options.onProgress
      (generateCoordinateGrid env.width env.height resolution).length
      (generateCoordinateGrid env.width env.height resolution) 0 (HitRegionMap.new none) []).2
    (Prod.ext h rfl)

/-- Witness for C1: the pass over `envC1` completes normally and its
map satisfies the invariant. -/
theorem calculate_index_consistency_witness :
    consistentViews (okMapOf (calculate 1 {} envC1)) :=
  calculate_index_consistency 1 {} envC1 (okMapOf (calculate 1 {} envC1)) (by decide)

theorem calcLoop_cancelled (env : CalcEnv) (timeout : Nat) (hasOnProgress : Bool)
    (total : Nat) :
    ∀ coords i k m events, k < coords.length →
      (∀ j, j < k → env.abortedAt (i + j) = false ∧ env.elapsedAt (i + j) ≤ timeout) →
      env.abortedAt (i + k) = true →
      (calcLoop env timeout true hasOnProgress total coords i m events).1
        = CalcOutcome.cancelled := by
  intro coords
  induction coords with
  | nil =>
    intro i k m events hk
    simp at hk
  | cons c rest ih =>
    intro i k m events hk hclean hab
    rw [calcLoop]
    by_cases hk0 : k = 0
    · subst hk0
      rw [Nat.add_zero] at hab
      rw [if_pos ⟨rfl, hab⟩]
    · have h0 := hclean 0 (by omega)
      rw [Nat.add_zero] at h0
      rw [if_neg (fun hcon => by rw [h0.1] at hcon; exact Bool.false_ne_true hcon.2),
        if_neg (by omega)]
      refine ih (i + 1) (k - 1) _ _ ?_ ?_ ?_
      · simp only [List.length_cons] at hk
        omega
      · intro j hj
        have := hclean (j + 1) (by omega)
        rwa [show i + (j + 1) = i + 1 + j by omega] at this
      · rwa [show i + 1 + (k - 1) = i + k by omega]

theorem calcLoop_timedOut (env : CalcEnv) (timeout : Nat) (hasSignal hasOnProgress : Bool)
    (total : Nat) :
    ∀ coords i k m events, k < coords.length →
      (∀ j, j < k → env.abortedAt (i + j) = false ∧ env.elapsedAt (i + j) ≤ timeout) →
      env.abortedAt (i + k) = false →
      timeout < env.elapsedAt (i + k) →
      (calcLoop env timeout hasSignal hasOnProgress total coords i m events).1
        = CalcOutcome.timedOut := by
  intro coords
  induction coords with
  | nil =>
    intro i k m events hk
    simp at hk
  | cons c rest ih =>
    intro i k m events hk hclean hab hto
    rw [calcLoop]
    by_cases hk0 : k = 0
    · subst hk0
      rw [Nat.add_zero] at hab hto
      rw [if_neg (fun hcon => by rw [hab] at hcon; exact Bool.false_ne_true hcon.2),
        if_pos hto]
    · have h0 := hclean 0 (by omega)
      rw [Nat.add_zero] at h0
      rw [if_neg (fun hcon => by rw [h0.1] at hcon; exact Bool.false_ne_true hcon.2),
        if_neg (by omega)]
      refine ih (i + 1) (k - 1) _ _ ?_ ?_ ?_ ?_
      · simp only [List.length_cons] at hk
        omega
      · intro j hj
        have := hclean (j + 1) (by omega)
        rwa [show i + (j + 1) = i + 1 + j by omega] at this
      · rwa [show i + 1 + (k - 1) = i + k by omega]
      · rwa [show i + 1 + (k - 1) = i + k by omega]

/-- C2 (amended): before each sample the pass checks the cancellation
signal (aborting immediately with the distinguished `cancelled`
outcome) and the elapsed time against the timeout option (aborting with
the distinguished `timedOut` outcome).  The timeout option defaults to
5000 ms — five seconds, not ten; the orchestrating caller passes
10000 ms explicitly.  An aborted pass returns no map, so the
orchestrator's previously built map (if any) is left in place and no
partially built map is returned to readers. -/
theorem calculate_abort_path :
    (∀ resolution prog sig env,
      calculate resolution { timeout := none, onProgress := prog, signal := sig } env =
        calculate resolution { timeout := some 5000, onProgress := prog, signal := sig } env) ∧
    (∀ resolution options env i, options.signal = true →
      (∀ j, j < i → env.abortedAt j = false ∧ env.elapsedAt j ≤ options.timeout.getD 5000) →
      i < (generateCoordinateGrid env.width env.height resolution).length →
      env.abortedAt i = true →
      (calculate resolution options env).outcome = CalcOutcome.cancelled) ∧
    (∀ resolution options env i,
      (∀ j, j < i → env.abortedAt j = false ∧ env.elapsedAt j ≤ options.timeout.getD 5000) →
      i < (generateCoordinateGrid env.width env.height resolution).length →
      env.abortedAt i = false →
      options.timeout.getD 5000 < env.elapsedAt i →
      (calculate resolution options env).outcome = CalcOutcome.timedOut) ∧
    (∀ previous resolution options env,
      (calculate resolution options env).outcome = CalcOutcome.cancelled ∨
        (calculate resolution options env).outcome = CalcOutcome.timedOut →
      runCalculation previous resolution options env = previous) := by
  refine ⟨fun _ _ _ _ => rfl, ?_, ?_, ?_⟩
  · intro resolution options env i hsig hclean hlen hab
    unfold calculate
    rw [hsig]
    exact calcLoop_cancelled env (options.timeout.getD 5000) options.onProgress _ _ 0 i
      (HitRegionMap.new none) [] hlen (fun j hj => by simpa using hclean j hj)
      (by simpa using hab)
  · intro resolution options env i hclean hlen hab hto
    unfold calculate
    exact calcLoop_timedOut env (options.timeout.getD 5000) options.signal
      options.onProgress _ _ 0 i (HitRegionMap.new none) [] hlen
      (fun j hj => by simpa using hclean j hj) (by simpa using hab) (by simpa using hto)
  · intro previous resolution options env h
    rcases h with h | h <;> simp [runCalculation, h]

/-- C2 counterexample: the claim says the timeout option defaults to
10 seconds.  With no timeout supplied and 7000 ms elapsed before the
first sample, the pass times out; with an explicit 10000 ms timeout it
does not — so the default is not 10000 ms (it is 5000 ms). -/
theorem calculate_default_timeout_counterexample :
    (calculate 1 { timeout := none, onProgress := false, signal := false }
        envC2default).outcome = CalcOutcome.timedOut ∧
    (calculate 1 { timeout := some 10000, onProgress := false, signal := false }
        envC2default).outcome ≠ CalcOutcome.timedOut := by
  exact ⟨by decide, by decide⟩

/-- Witness for C2: over `envC2` the pass is cancelled at iteration 1
and the orchestrator keeps its previous map. -/
theorem calculate_abort_path_witness :
    (calculate 1 { timeout := none, onProgress := false, signal := true } envC2).outcome
      = CalcOutcome.cancelled ∧
    runCalculation (some (HitRegionMap.new none)) 1
      { timeout := none, onProgress := false, signal := true } envC2
      = some (HitRegionMap.new none) := by
  have h := calculate_abort_path.2.1 1
    { timeout := none, onProgress := false, signal := true } envC2 1 rfl
    (fun j hj => by
      have hj0 : j = 0 := by omega
      subst hj0
      exact ⟨rfl, by decide⟩)
    (by decide) (by decide)
  exact ⟨h, calculate_abort_path.2.2.2 (some (HitRegionMap.new none)) 1
    { timeout := none, onProgress := false, signal := true } envC2 (Or.inl h)⟩

theorem calcLoop_progress (env : CalcEnv) (timeout : Nat) (hasSignal : Bool) (total : Nat)
    (hclean : ∀ j, env.abortedAt j = false ∧ env.elapsedAt j ≤ timeout) :
    ∀ coords i m events,
      (calcLoop env timeout hasSignal true total coords i m events).2 =
        events ++ (List.range coords.length).filterMap fun j =>
          if progressGuard total (i + j) = true then some (progressEvent total (i + j))
          else none := by
  intro coords
  induction coords with
  | nil =>
    intro i m events
    simp [calcLoop]
  | cons c rest ih =>
    intro i m events
    rw [calcLoop]
    rw [if_neg (fun hcon => by rw [(hclean i).1] at hcon; exact Bool.false_ne_true hcon.2),
      if_neg (by have := (hclean i).2; omega)]
    have hstep : ∀ m₂ ev₂,
        (calcLoop env timeout hasSignal true total rest (i + 1) m₂ ev₂).2 =
          ev₂ ++ (List.range rest.length).filterMap fun j =>
            if progressGuard total (i + 1 + j) = true
            then some (progressEvent total (i + 1 + j)) else none :=
      fun m₂ ev₂ => ih (i + 1) m₂ ev₂
    have hcomp : ((fun j => if progressGuard total (i + j) = true
        then some (progressEvent total (i + j)) else none) ∘ Nat.succ)
        = fun j => if progressGuard total (i + 1 + j) = true
          then some (progressEvent total (i + 1 + j)) else none := by
      funext j
      simp only [Function.comp_apply]
      rw [show i + Nat.succ j = i + 1 + j by omega]
    cases hsamp : env.sample c with
    | none =>
      simp only [hsamp, Bool.true_and]
      rw [hstep]
      rw [List.length_cons, List.range_succ_eq_map, List.filterMap_cons, List.filterMap_map,
        hcomp]
      simp only [Nat.add_zero]
      by_cases hpg : progressGuard total i = true
      · simp [hpg, List.append_assoc]
      · simp [hpg]
    | some el =>
      simp only [hsamp, Bool.true_and]
      rw [hstep]
      rw [List.length_cons, List.range_succ_eq_map, List.filterMap_cons, List.filterMap_map,
        hcomp]
      simp only [Nat.add_zero]
      by_cases hpg : progressGuard total i = true
      · simp [hpg, List.append_assoc]
      · simp [hpg]

/-- C8 (amended): with an `onProgress` callback and no abort, the pass
invokes the callback exactly at the iteration indices `i` with
`i % floor(N / 10) == 0` (each invocation passing the percentage
`(i / N) * 100`, the index `i`, and the total `N`).  When `N` is a
multiple of 10 these are exactly the 10%-of-total boundaries; when
`N < 10` the divisor floors to `0`, `i % 0` is `NaN` in JavaScript, and
the callback is never invoked. -/
theorem calculate_progress_schedule (resolution : Nat) (tmo : Option Nat) (sig : Bool)
    (env : CalcEnv)
    (hclean : ∀ j, env.abortedAt j = false ∧ env.elapsedAt j ≤ tmo.getD 5000) :
    (calculate resolution { timeout := tmo, onProgress := true, signal := sig }
        env).progressEvents
      = (List.range (generateCoordinateGrid env.width env.height resolution).length).filterMap
          (fun i =>
            if progressGuard (generateCoordinateGrid env.width env.height resolution).length i
                = true
            then some (progressEvent
              (generateCoordinateGrid env.width env.height resolution).length i)
            else none) ∧
    ((generateCoordinateGrid env.width env.height resolution).length < 10 →
      (calculate resolution { timeout := tmo, onProgress := true, signal := sig }
        env).progressEvents = []) := by
  have h := calcLoop_progress env (tmo.getD 5000) sig
    (generateCoordinateGrid env.width env.height resolution).length hclean
    (generateCoordinateGrid env.width env.height resolution) 0 (HitRegionMap.new none) []
  have hmain : (calculate resolution { timeout := tmo, onProgress := true, signal := sig }
      env).progressEvents
      = (List.range (generateCoordinateGrid env.width env.height resolution).length).filterMap
        (fun i =>
          if progressGuard (generateCoordinateGrid env.width env.height resolution).length i
              = true
          then some (progressEvent
            (generateCoordinateGrid env.width env.height resolution).length i)
          else none) := by
    unfold calculate
    simpa using h
  refine ⟨hmain, fun hlt => ?_⟩
  rw [hmain]
  apply List.filterMap_eq_nil_iff.mpr
  intro i _
  rw [if_neg]
  intro hpg
  unfold progressGuard at hpg
  rw [if_pos (Nat.div_eq_of_lt hlt)] at hpg
  exact Bool.false_ne_true hpg

/-- C8 counterexample: the claim promises `onProgress` invocations at
each 10%-of-total boundary for every grid size `N ≥ 1` — so at least
the 0% boundary at iteration 0.  On a 5-point grid the pass invokes the
callback zero times, because `Math.floor(5 / 10) = 0` and `i % 0` is
`NaN` in JavaScript. -/
theorem calculate_progress_small_grid_counterexample :
    (generateCoordinateGrid 5 1 1).length = 5 ∧
    (calculate 1 { timeout := none, onProgress := true, signal := false }
      envC8small).progressEvents = [] := by
  exact ⟨by decide, by decide⟩

/-- Witness for C8 on a 20-point grid: the schedule equation holds (the
callback fires at every even index, ten times). -/
theorem calculate_progress_schedule_witness :
    (calculate 1 { timeout := none, onProgress := true, signal := false }
        envC8).progressEvents
      = (List.range (generateCoordinateGrid envC8.width envC8.height 1).length).filterMap
          (fun i =>
            if progressGuard (generateCoordinateGrid envC8.width envC8.height 1).length i
                = true
            then some (progressEvent
              (generateCoordinateGrid envC8.width envC8.height 1).length i)
            else none) :=
  (calculate_progress_schedule 1 none false envC8
    (fun _ => ⟨rfl, Nat.zero_le 5000⟩)).1

end HitRegion

